import Mathlib

/-!
Verification of the Miniscop multiplayer relay subsystem.

This file embeds, in Lean, the parts of the repository that the spec's
testable properties talk about:

* the wire codec of `src/networking.rs` (`Packet`, `send_packet`,
  `receive_packet`, bincode's `config::standard()` encoding: enum
  discriminants and `u64` values as bincode varints, `f32` fields as
  4-byte little-endian bit patterns, `Option` as a one-byte marker);
* the server's admission check, per-connection receive loop and
  per-connection broadcast loop of `src/bin/server/main.rs`;
* the client connection manager of
  `src/bin/client/plugins/overworld/multiplayer.rs` and
  `.../multiplayer/netcode.rs` (`try_disconnect`, the receive pump).

Bytes are modelled as natural numbers below 256; `f32` fields are
modelled by their 32-bit patterns (the codec is bit-exact on floats),
and machine integers by naturals with explicit bounds. Async loops are
modelled by their per-iteration step functions and by folds of those
steps over the list of events a task observes.
-/

namespace Miniscop

/-! ## Little-endian fixed-width byte encoding -/

/-- Encode `n` as `w` little-endian bytes (the low `w` bytes of `n`). -/
def toBytesLE : Nat → Nat → List Nat
  | 0, _ => []
  | w + 1, n => n % 256 :: toBytesLE w (n / 256)

/-- Read `w` little-endian bytes from the front of a list, returning the
value and the remaining bytes; fails if fewer than `w` bytes remain. -/
def fromBytesLE : Nat → List Nat → Option (Nat × List Nat)
  | 0, bs => some (0, bs)
  | _ + 1, [] => none
  | w + 1, b :: bs =>
    match fromBytesLE w bs with
    | some (n, rest) => some (b + 256 * n, rest)
    | none => none

/-! ## bincode varint encoding (`config::standard()`)

bincode's standard configuration encodes unsigned integers with a
variable-length scheme: values below 251 are a single byte; otherwise a
marker byte 251/252/253 is followed by the value as a little-endian
u16/u32/u64. Enum discriminants are encoded as `u32` values with the
same scheme (the three `Packet` variants give single bytes 0, 1, 2). -/

/-- bincode varint encoding of an unsigned integer (`u64` range). -/
def writeVarint (n : Nat) : List Nat :=
  if n < 251 then [n]
  else if n < 65536 then 251 :: toBytesLE 2 n
  else if n < 4294967296 then 252 :: toBytesLE 4 n
  else 253 :: toBytesLE 8 n

/-- bincode varint decoding: single byte below 251, or a width marker
followed by that many little-endian bytes. Marker 254 announces a
`u128`, which no `Packet` field can hold, and 255 is unused: both are
decode errors. -/
def readVarint : List Nat → Option (Nat × List Nat)
  | [] => none
  | b :: bs =>
    if b < 251 then some (b, bs)
    else if b = 251 then fromBytesLE 2 bs
    else if b = 252 then fromBytesLE 4 bs
    else if b = 253 then fromBytesLE 8 bs
    else none

/-! ## The `Packet` type and its codec (src/networking.rs) -/

/-- `Packet` from `src/networking.rs` lines 7-24. `f32` fields are
modelled by their 32-bit patterns. The `PlayerMovement` fields are, in
declaration order: `id`, `x`, `y`, `z`, `velocity_x`, `velocity_y`,
`velocity_z`. -/
inductive Packet where
  | ClientConnect : Packet
  | ClientDisconnect : Option Nat → Packet
  | PlayerMovement : Option Nat → Nat → Nat → Nat → Nat → Nat → Nat → Packet
deriving DecidableEq

/-- Field names of the `PlayerMovement` variant as declared in
`src/networking.rs` lines 15-23. -/
def playerMovementFields : List String :=
  ["id", "x", "y", "z", "velocity_x", "velocity_y", "velocity_z"]

/-- A `u64` id value is in range. -/
def wfId : Option Nat → Bool
  | none => true
  | some v => decide (v < 2 ^ 64)

/-- Well-formedness: every machine integer inhabits its Rust type's
range (`id : Option<u64>`, coordinate and velocity bit patterns are
`f32`, i.e. 32-bit). Every constructible Rust `Packet` satisfies this. -/
def wfPacket : Packet → Bool
  | .ClientConnect => true
  | .ClientDisconnect id => wfId id
  | .PlayerMovement id x y z vx vy vz =>
    wfId id &&
    decide (x < 2 ^ 32) && decide (y < 2 ^ 32) && decide (z < 2 ^ 32) &&
    decide (vx < 2 ^ 32) && decide (vy < 2 ^ 32) && decide (vz < 2 ^ 32)

/-- bincode encoding of `Option<u64>`: one marker byte (0 = `None`,
1 = `Some`) followed, when present, by the varint-encoded value. -/
def encodeOptionId : Option Nat → List Nat
  | none => [0]
  | some v => 1 :: writeVarint v

/-- bincode decoding of `Option<u64>`; any marker byte other than 0 or
1 is a decode error. -/
def decodeOptionId : List Nat → Option (Option Nat × List Nat)
  | [] => none
  | 0 :: bs => some (none, bs)
  | 1 :: bs => (readVarint bs).map (fun p => (some p.1, p.2))
  | _ :: _ => none

/-- The byte string `send_packet` writes for a packet
(`src/networking.rs` lines 28-34): `encode_to_vec` with
`PACKET_CONFIG = config::standard()`. Variant index as a varint, then
the fields in declaration order. -/
def encode_packet : Packet → List Nat
  | .ClientConnect => writeVarint 0
  | .ClientDisconnect id => writeVarint 1 ++ encodeOptionId id
  | .PlayerMovement id x y z vx vy vz =>
    writeVarint 2 ++ encodeOptionId id ++ toBytesLE 4 x ++ toBytesLE 4 y ++
      toBytesLE 4 z ++ toBytesLE 4 vx ++ toBytesLE 4 vy ++ toBytesLE 4 vz

/-- `decode_from_slice` with `PACKET_CONFIG` (`src/networking.rs` line
39), as a total parser: `none` models a `DecodeError`. Returns the
decoded packet and the unconsumed remainder (the source discards the
consumed-byte count). -/
def decode_packet (bs : List Nat) : Option (Packet × List Nat) := do
  let (d, bs) ← readVarint bs
  match d with
  | 0 => some (Packet.ClientConnect, bs)
  | 1 => do
    let (id, bs) ← decodeOptionId bs
    some (Packet.ClientDisconnect id, bs)
  | 2 => do
    let (id, bs) ← decodeOptionId bs
    let (x, bs) ← fromBytesLE 4 bs
    let (y, bs) ← fromBytesLE 4 bs
    let (z, bs) ← fromBytesLE 4 bs
    let (vx, bs) ← fromBytesLE 4 bs
    let (vy, bs) ← fromBytesLE 4 bs
    let (vz, bs) ← fromBytesLE 4 bs
    some (Packet.PlayerMovement id x y z vx vy vz, bs)
  | _ => none

/-- `receive_packet` (`src/networking.rs` lines 37-41):
`read_to_end(64)` fails on a stream longer than 64 bytes; otherwise the
bytes are decoded and the packet returned. `none` models `Err`. -/
def receive_packet (bs : List Nat) : Option Packet :=
  if 64 < bs.length then none
  else (decode_packet bs).map (fun p => p.1)

/-! ## The spec's version of the movement packet

The spec's data model (spec.md section 3) declares
`PlayerMovement { id: optional PeerId, x, y, z: float, animation_frame: u8 }`.
The client systems in
`src/bin/client/plugins/overworld/multiplayer.rs` (lines 132-144 and
216-223) pattern-match and construct exactly those five fields, while
`src/networking.rs` declares seven (velocities instead of an animation
frame). The definitions below follow the spec's words so the two
layouts can be compared. -/

/-- Modelled from the spec: the packet data model of spec.md section 3,
whose `PlayerMovement` carries `id`, `x`, `y`, `z` and a one-byte
`animation_frame`; this is also the shape the client systems in
`src/bin/client/plugins/overworld/multiplayer.rs` use. -/
inductive PacketSpec where
  | ClientConnect : PacketSpec
  | ClientDisconnect : Option Nat → PacketSpec
  | PlayerMovement : Option Nat → Nat → Nat → Nat → Nat → PacketSpec
deriving DecidableEq

/-- Field names of the spec's `PlayerMovement` variant. -/
def specPlayerMovementFields : List String :=
  ["id", "x", "y", "z", "animation_frame"]

/-- Modelled from the spec: bincode `config::standard()` encoding of the
spec's packet layout (same rules as `encode_packet`; a `u8` is a single
plain byte). -/
def encode_packet_spec : PacketSpec → List Nat
  | .ClientConnect => writeVarint 0
  | .ClientDisconnect id => writeVarint 1 ++ encodeOptionId id
  | .PlayerMovement id x y z animation_frame =>
    writeVarint 2 ++ encodeOptionId id ++ toBytesLE 4 x ++ toBytesLE 4 y ++
      toBytesLE 4 z ++ [animation_frame % 256]

/-- The outbound movement packet built by `send_current_position`
(`src/bin/client/plugins/overworld/multiplayer.rs` lines 216-223): the
client always sets `id: None` and fills position and animation frame
from its own state. -/
def send_current_position_packet (x y z animation_frame : Nat) : PacketSpec :=
  .PlayerMovement none x y z animation_frame

/-- The id field of a spec packet's `PlayerMovement`, when it is one. -/
def specMovementId : PacketSpec → Option (Option Nat)
  | .PlayerMovement id _ _ _ _ => some id
  | _ => none

/-! ## Server admission loop (src/bin/server/main.rs lines 54-85) -/

/-- The three outcomes of the admission check: `refuse` answers the
attempt before any handshake, `retry` issues the address-validation
challenge, `accept` proceeds to `incoming.await` (the handshake). -/
inductive AdmissionDecision where
  | refuse : AdmissionDecision
  | retry : AdmissionDecision
  | accept : AdmissionDecision
deriving DecidableEq

/-- The admission check of the accept loop (`src/bin/server/main.rs`
lines 56-62): refuse when `endpoint.open_connections() > max_players`,
otherwise demand address validation, otherwise accept. -/
def admission_decision (max_players open_connections : Nat)
    (remote_address_validated : Bool) : AdmissionDecision :=
  if open_connections > max_players then .refuse
  else if !remote_address_validated then .retry
  else .accept

/-! ## Server per-connection receive loop (handle_connection) -/

/-- What one iteration of `handle_connection`'s receive loop does with
a decoded packet (`src/bin/server/main.rs` lines 123-155). -/
inductive RecvAction where
  | reject : String → RecvAction
  | disconnectOk : RecvAction
  | publish : Packet → RecvAction
deriving DecidableEq

/-- One iteration of the receive loop of `handle_connection`
(`src/bin/server/main.rs` lines 123-155): `ClientConnect` is a protocol
violation; any `ClientDisconnect` ends the loop with `Ok(())`;
`PlayerMovement` with a populated id is a protocol violation, and with
`id = None` it is republished to the bus relabelled with
`Some(client_id)`. -/
def handle_connection_step (client_id : Nat) : Packet → RecvAction
  | .ClientConnect => .reject "Client tried to send Packet::ClientConnect."
  | .ClientDisconnect _ => .disconnectOk
  | .PlayerMovement id x y z vx vy vz =>
    match id with
    | some _ => .reject "Client sent PlayerMovement with an ID."
    | none => .publish (.PlayerMovement (some client_id) x y z vx vy vz)

/-- How a run of the receive loop ends: `pending` when the supplied
event list ran out with the loop still going, `finishedOk` for the
`Ok(())` return, `errored` for an `Err` return. -/
inductive LoopOutcome where
  | pending : LoopOutcome
  | finishedOk : LoopOutcome
  | errored : LoopOutcome
deriving DecidableEq

/-- A run of `handle_connection`'s receive loop over the sequence of
stream events it observes: each event is either a decoded packet or a
stream-accept/decode failure (`Except.error`, which the `?` operators
on lines 121-122 turn into an `Err` return). Returns the outcome and
the packets published to the broadcast bus, in order. -/
def handle_connection_run (client_id : Nat) :
    List (Except String Packet) → LoopOutcome × List Packet
  | [] => (.pending, [])
  | .error _ :: _ => (.errored, [])
  | .ok p :: rest =>
    match handle_connection_step client_id p with
    | .reject _ => (.errored, [])
    | .disconnectOk => (.finishedOk, [])
    | .publish q =>
      let (o, ps) := handle_connection_run client_id rest
      (o, q :: ps)

/-- The packet the connection supervisor task publishes when a
connection's `handle_connection` future finishes for any reason
(`src/bin/server/main.rs` lines 76-77). -/
def main_disconnect_broadcast (client_id : Nat) : Packet :=
  .ClientDisconnect (some client_id)

/-! ## Server per-connection broadcast loop (receive_broadcasts) -/

/-- What one iteration of `receive_broadcasts` does with one packet
received from the bus: forward the listed packets on fresh outbound
streams and continue, terminate the loop with `Ok(())`, or hit one of
the `panic!`/`expect` branches. -/
inductive BusAction where
  | sends : List Packet → BusAction
  | terminated : BusAction
  | panicked : String → BusAction
deriving DecidableEq

/-- One iteration of the broadcast loop (`src/bin/server/main.rs` lines
174-201): `ClientConnect` panics; `ClientDisconnect` without an id hits
the `expect`; `ClientDisconnect(Some(id))` terminates the loop of the
matching peer and is forwarded by every other; `PlayerMovement` is
forwarded exactly when its id is present and differs from this peer's
`client_id`. -/
def receive_broadcasts_step (client_id : Nat) : Packet → BusAction
  | .ClientConnect =>
    .panicked "Server broadcasted a client connect. This should never happen. Please report this to the dev."
  | .ClientDisconnect none =>
    .panicked "Server broadcasted Packet::ClientDisconnect with no id. This should never happen. Please report this to the dev."
  | .ClientDisconnect (some id) =>
    if id = client_id then .terminated
    else .sends [.ClientDisconnect (some id)]
  | .PlayerMovement id x y z vx vy vz =>
    match id with
    | some i =>
      if i ≠ client_id then .sends [.PlayerMovement (some i) x y z vx vy vz]
      else .sends []
    | none => .sends []

/-- The bus invariant: a packet is fit for the broadcast bus when it is
a `PlayerMovement` with a populated id or a `ClientDisconnect` with a
populated id. -/
def busOk : Packet → Bool
  | .PlayerMovement (some _) _ _ _ _ _ _ => true
  | .ClientDisconnect (some _) => true
  | _ => false

/-- Whether a `BusAction` is one of the panic branches. -/
def busActionPanics : BusAction → Bool
  | .panicked _ => true
  | _ => false

/-! ## Client receive pump (netcode.rs await_server_packets) -/

/-- Result of a `tokio::sync::mpsc` `try_send`. -/
inductive TrySendResult where
  | accepted : TrySendResult
  | full : TrySendResult
  | closed : TrySendResult
deriving DecidableEq

/-- What happens to one decoded packet in `await_server_packets`
(`src/bin/client/plugins/overworld/multiplayer/netcode.rs` lines
89-103). -/
inductive ForwardOutcome where
  | delivered : ForwardOutcome
  | warnedThenDelivered : ForwardOutcome
  | warnedThenClosedLogged : ForwardOutcome
  | droppedNoLog : ForwardOutcome
deriving DecidableEq

/-- The forwarding of one decoded packet into the bounded inbound queue
(`netcode.rs` lines 92-99): non-blocking `try_send` first; only its
`Full` error triggers the warning log and the blocking `send` (whose
own failure, queue closed meanwhile, is logged at info level); a
`Closed` error from `try_send` matches no arm, so the packet vanishes
with no log. `blocking_send_accepted` says whether the fallback
blocking send found the queue still open. -/
def forward_to_bevy (first : TrySendResult) (blocking_send_accepted : Bool) :
    ForwardOutcome :=
  match first with
  | .accepted => .delivered
  | .full =>
    if blocking_send_accepted then .warnedThenDelivered
    else .warnedThenClosedLogged
  | .closed => .droppedNoLog

/-- Whether the outcome used the blocking fallback offer (and hence
logged the channel-full warning). -/
def usesBlockingOffer : ForwardOutcome → Bool
  | .warnedThenDelivered => true
  | .warnedThenClosedLogged => true
  | _ => false

/-- Whether the packet was lost without any log line. -/
def droppedSilently : ForwardOutcome → Bool
  | .droppedNoLog => true
  | _ => false

/-- The loop guard of `await_server_packets` (`netcode.rs` line 85):
the pump loops `while !to_bevy.is_closed()`, so closure of the inbound
queue ends the pump. -/
def await_server_packets_continues (to_bevy_closed : Bool) : Bool :=
  !to_bevy_closed

/-! ## Client connection manager (multiplayer.rs ServerConnection) -/

/-- The client-side connection state that `try_disconnect` touches
(`src/bin/client/plugins/overworld/multiplayer.rs` lines 31-62):
whether the outbound `to_client` channel still has a live receiver
(`await_bevy_packets` drops it when it returns), whether that channel
is at capacity, whether `connect_to_server` resolved to an error (which
was already logged when it happened, `multiplayer.rs` lines 96-101),
and whether the `connection_handle` join output was already taken by an
earlier `block_on`. -/
structure ClientConn where
  to_client_closed : Bool
  to_client_full : Bool
  connect_failed : Bool
  handle_consumed : Bool
deriving DecidableEq

/-- Outcome of one `try_disconnect` call. -/
inductive DisconnectOutcome where
  | ok : DisconnectOutcome
  | errSendFailed : DisconnectOutcome
  | errAlreadyReported : DisconnectOutcome
  | panicked : DisconnectOutcome
deriving DecidableEq

/-- `ServerConnection::try_disconnect` (`multiplayer.rs` lines 45-62) as
a state transition. Step 1: `try_send(ClientDisconnect(None))?` fails
up front when the channel is closed or full. Step 2: `block_on(&mut
connection_handle)?`; polling the join handle after its output was
already taken panics, and a connect error that was reported once is
answered with the fresh-message-free "already reported" error,
discarding the original. Step 3 (connect succeeded): block on both pump
handles and on `connection.closed()`; the send pump has then consumed
`ClientDisconnect(None)` and returned, dropping the `from_bevy`
receiver, so the outbound channel is closed in the post-state. Returns
the outcome, the packets sent on the outbound channel, and the
post-state. -/
def try_disconnect (s : ClientConn) :
    DisconnectOutcome × List Packet × ClientConn :=
  if s.to_client_closed || s.to_client_full then (.errSendFailed, [], s)
  else if s.handle_consumed then (.panicked, [.ClientDisconnect none], s)
  else if s.connect_failed then
    (.errAlreadyReported, [.ClientDisconnect none],
      { s with handle_consumed := true })
  else
    (.ok, [.ClientDisconnect none],
      { s with handle_consumed := true, to_client_closed := true })

end Miniscop

namespace Miniscop

/-! ## Codec lemmas -/

theorem toBytesLE_length (w : Nat) : ∀ n, (toBytesLE w n).length = w := by
  induction w with
  | zero => intro n; rfl
  | succ w ih => intro n; simp [toBytesLE, ih]

theorem fromBytesLE_toBytesLE (w : Nat) :
    ∀ n, n < 256 ^ w → ∀ rest : List Nat,
      fromBytesLE w (toBytesLE w n ++ rest) = some (n, rest) := by
  induction w with
  | zero =>
    intro n hn rest
    interval_cases n
    rfl
  | succ w ih =>
    intro n hn rest
    have hdiv : n / 256 < 256 ^ w := by
      rw [Nat.div_lt_iff_lt_mul (by norm_num)]
      calc n < 256 ^ (w + 1) := hn
        _ = 256 ^ w * 256 := by ring
    simp only [toBytesLE, List.cons_append, fromBytesLE, List.append_eq,
      ih (n / 256) hdiv rest, Nat.mod_add_div]

theorem fromBytesLE_toBytesLE_nil (w n : Nat) (hn : n < 256 ^ w) :
    fromBytesLE w (toBytesLE w n) = some (n, []) := by
  simpa using fromBytesLE_toBytesLE w n hn []

theorem writeVarint_small (n : Nat) (h : n < 251) : writeVarint n = [n] := by
  simp [writeVarint, h]

theorem readVarint_writeVarint (n : Nat) (hn : n < 2 ^ 64) (rest : List Nat) :
    readVarint (writeVarint n ++ rest) = some (n, rest) := by
  unfold writeVarint
  by_cases h1 : n < 251
  · simp [readVarint, h1]
  · by_cases h2 : n < 65536
    · have : fromBytesLE 2 (toBytesLE 2 n ++ rest) = some (n, rest) :=
        fromBytesLE_toBytesLE 2 n (by norm_num; omega) rest
      simp [readVarint, h1, h2, this]
    · by_cases h3 : n < 4294967296
      · have : fromBytesLE 4 (toBytesLE 4 n ++ rest) = some (n, rest) :=
          fromBytesLE_toBytesLE 4 n (by norm_num; omega) rest
        simp [readVarint, h1, h2, h3, this]
      · have : fromBytesLE 8 (toBytesLE 8 n ++ rest) = some (n, rest) :=
          fromBytesLE_toBytesLE 8 n (by norm_num at hn ⊢; omega) rest
        simp [readVarint, h1, h2, h3, this]

theorem writeVarint_length (n : Nat) :
    1 ≤ (writeVarint n).length ∧ (writeVarint n).length ≤ 9 := by
  unfold writeVarint
  by_cases h1 : n < 251
  · simp [h1]
  · by_cases h2 : n < 65536
    · simp [h1, h2, toBytesLE_length]
    · by_cases h3 : n < 4294967296
      · simp [h1, h2, h3, toBytesLE_length]
      · simp [h1, h2, h3, toBytesLE_length]

theorem decodeOptionId_encodeOptionId (id : Option Nat) (h : wfId id = true)
    (rest : List Nat) :
    decodeOptionId (encodeOptionId id ++ rest) = some (id, rest) := by
  match id with
  | none => simp [encodeOptionId, decodeOptionId]
  | some v =>
    have hv : v < 2 ^ 64 := by simpa [wfId] using h
    simp [encodeOptionId, decodeOptionId, readVarint_writeVarint v hv rest]

theorem encodeOptionId_length (id : Option Nat) :
    1 ≤ (encodeOptionId id).length ∧ (encodeOptionId id).length ≤ 10 := by
  match id with
  | none => simp [encodeOptionId]
  | some v =>
    have := writeVarint_length v
    simp [encodeOptionId]
    omega

theorem encode_packet_length (p : Packet) :
    (encode_packet p).length ≤ 35 := by
  match p with
  | .ClientConnect => simp [encode_packet, writeVarint]
  | .ClientDisconnect id =>
    have hid := encodeOptionId_length id
    simp only [encode_packet, writeVarint_small 1 (by norm_num),
      List.length_append, List.length_cons, List.length_nil]
    omega
  | .PlayerMovement id x y z vx vy vz =>
    have hid := encodeOptionId_length id
    simp only [encode_packet, writeVarint_small 2 (by norm_num),
      List.length_append, List.length_cons, List.length_nil, toBytesLE_length]
    omega

theorem decode_encode_packet (p : Packet) (hp : wfPacket p = true) :
    decode_packet (encode_packet p) = some (p, []) := by
  match p with
  | .ClientConnect =>
    rfl
  | .ClientDisconnect id =>
    have hid : wfId id = true := by simpa [wfPacket] using hp
    have hdec := decodeOptionId_encodeOptionId id hid []
    rw [List.append_nil] at hdec
    simp only [encode_packet, writeVarint_small 1 (by norm_num),
      List.cons_append, List.nil_append]
    simp [decode_packet, readVarint, hdec]
  | .PlayerMovement id x y z vx vy vz =>
    simp only [wfPacket, Bool.and_eq_true, decide_eq_true_eq] at hp
    obtain ⟨⟨⟨⟨⟨⟨hid, hx⟩, hy⟩, hz⟩, hvx⟩, hvy⟩, hvz⟩ := hp
    have b32 : (4294967296 : Nat) = 256 ^ 4 := by norm_num
    simp only [encode_packet, writeVarint_small 2 (by norm_num),
      List.cons_append, List.nil_append, List.append_assoc]
    simp [decode_packet, readVarint,
      decodeOptionId_encodeOptionId id hid,
      fromBytesLE_toBytesLE 4 x (by rw [← b32]; omega),
      fromBytesLE_toBytesLE 4 y (by rw [← b32]; omega),
      fromBytesLE_toBytesLE 4 z (by rw [← b32]; omega),
      fromBytesLE_toBytesLE 4 vx (by rw [← b32]; omega),
      fromBytesLE_toBytesLE 4 vy (by rw [← b32]; omega),
      fromBytesLE_toBytesLE_nil 4 vz (by rw [← b32]; omega)]

/-! ## Claim theorems -/

/-- Claim C2: decoding the encoding of any constructible `Packet`
yields that packet back: `receive_packet` applied to the bytes produced
by `send_packet`'s encoding returns the packet (in particular for
`id = None`, `id = Some 0`, and all field boundary values). -/
theorem packet_roundtrip (p : Packet) (hp : wfPacket p = true) :
    receive_packet (encode_packet p) = some p := by
  have hlen : (encode_packet p).length ≤ 64 :=
    le_trans (encode_packet_length p) (by norm_num)
  simp [receive_packet, Nat.not_lt.mpr hlen, decode_encode_packet p hp]

/-- Witness for C2 at the boundary packet
`PlayerMovement { id: Some(0), .. }`. -/
theorem packet_roundtrip_witness :
    wfPacket (Packet.PlayerMovement (some 0) 0 0 0 0 0 0) = true ∧
      receive_packet (encode_packet (Packet.PlayerMovement (some 0) 0 0 0 0 0 0)) =
        some (Packet.PlayerMovement (some 0) 0 0 0 0 0 0) :=
  ⟨by decide, packet_roundtrip (Packet.PlayerMovement (some 0) 0 0 0 0 0 0) (by decide)⟩

/-- Claim C1: any `PlayerMovement` a sender with id `sender` publishes
to the bus is forwarded exactly once (one `send_packet` of exactly that
packet) by the broadcast loop of every peer whose `client_id` differs
from `sender`, and the sender's own broadcast loop forwards nothing for
it. -/
theorem playerMovement_broadcast_fanout (sender cid : Nat) (pkt q : Packet)
    (h : handle_connection_step sender pkt = .publish q) :
    (cid ≠ sender → receive_broadcasts_step cid q = .sends [q]) ∧
      receive_broadcasts_step sender q = .sends [] := by
  match pkt with
  | .ClientConnect => simp [handle_connection_step] at h
  | .ClientDisconnect id => simp [handle_connection_step] at h
  | .PlayerMovement (some i) x y z vx vy vz =>
    simp [handle_connection_step] at h
  | .PlayerMovement none x y z vx vy vz =>
    simp only [handle_connection_step, RecvAction.publish.injEq] at h
    subst h
    constructor
    · intro hne
      have hs : sender ≠ cid := Ne.symm hne
      simp [receive_broadcasts_step, hs]
    · simp [receive_broadcasts_step]

/-- Witness for C1: sender 1 publishes a movement; peer 2 forwards it
exactly once, peer 1 does not get it back. -/
theorem playerMovement_broadcast_fanout_witness :
    receive_broadcasts_step 2 (Packet.PlayerMovement (some 1) 0 0 0 0 0 0) =
        BusAction.sends [Packet.PlayerMovement (some 1) 0 0 0 0 0 0] ∧
      receive_broadcasts_step 1 (Packet.PlayerMovement (some 1) 0 0 0 0 0 0) =
        BusAction.sends [] :=
  ⟨(playerMovement_broadcast_fanout 1 2 (Packet.PlayerMovement none 0 0 0 0 0 0)
      (Packet.PlayerMovement (some 1) 0 0 0 0 0 0) (by decide)).1 (by decide),
    (playerMovement_broadcast_fanout 1 2 (Packet.PlayerMovement none 0 0 0 0 0 0)
      (Packet.PlayerMovement (some 1) 0 0 0 0 0 0) (by decide)).2⟩

/-- Counterexample to claim C3: with `max_players = 2` and 2 open
connections, the next (third concurrent) attempt by a validated address
is accepted, not refused — the check refuses only once the open count
exceeds `max_players`. -/
theorem admission_at_capacity_not_refused :
    admission_decision 2 2 true = AdmissionDecision.accept ∧
      AdmissionDecision.accept ≠ AdmissionDecision.refuse := by
  constructor
  · rfl
  · intro h
    cases h

/-- Claim C3 as amended: the admission loop never refuses while the
open-connection count is at most `max_players` (so all of any N ≤
max_players concurrently admitted connections are accepted, and even
the attempt arriving at exactly `max_players` open connections is
accepted), and refuses — before any handshake — exactly when the
open-connection count exceeds `max_players`. -/
theorem admission_cap_behavior :
    (∀ max_players open_connections validated,
        admission_decision max_players open_connections validated =
            AdmissionDecision.refuse ↔ max_players < open_connections) ∧
      ∀ max_players open_connections, open_connections ≤ max_players →
        admission_decision max_players open_connections true =
          AdmissionDecision.accept := by
  constructor
  · intro m k v
    unfold admission_decision
    split_ifs with h1 h2
    · simp [h1]
    · simp; omega
    · simp; omega
  · intro m k hk
    simp [admission_decision, Nat.not_lt.mpr hk]

/-- Witness for C3 (amended): with cap 2, one open connection is below
the cap and the attempt is accepted; three open connections exceed the
cap and the attempt is refused. -/
theorem admission_cap_behavior_witness :
    admission_decision 2 1 true = AdmissionDecision.accept ∧
      admission_decision 2 3 true = AdmissionDecision.refuse :=
  ⟨admission_cap_behavior.2 2 1 (by decide),
    (admission_cap_behavior.1 2 3 true).mpr (by decide)⟩

/-- Counterexample to claim C4: a `ClientDisconnect(Some(3))` from the
client makes the receive loop of the peer with id 7 return `Ok(())`
(a normal disconnect), not an error as the claim demands. -/
theorem disconnect_with_id_returns_ok :
    handle_connection_run 7 [Except.ok (Packet.ClientDisconnect (some 3))] =
        (LoopOutcome.finishedOk, []) ∧
      LoopOutcome.finishedOk ≠ LoopOutcome.errored := by
  constructor
  · rfl
  · intro h
    cases h

/-- Claim C4 as amended: `ClientConnect` from a client is rejected with
an error; a `PlayerMovement` carrying a non-`None` id is rejected with
an error; a `ClientDisconnect` terminates the loop with `Ok(())`
whatever id it carries; a `PlayerMovement` with `id = None` is
republished relabelled with `Some(client_id)`; and the loop terminates
with an error on a stream-accept (or decode) failure. -/
theorem receive_loop_validation :
    (∀ cid, handle_connection_step cid Packet.ClientConnect =
        RecvAction.reject "Client tried to send Packet::ClientConnect.") ∧
      (∀ cid i x y z vx vy vz,
        handle_connection_step cid (Packet.PlayerMovement (some i) x y z vx vy vz) =
          RecvAction.reject "Client sent PlayerMovement with an ID.") ∧
      (∀ cid id, handle_connection_step cid (Packet.ClientDisconnect id) =
        RecvAction.disconnectOk) ∧
      (∀ cid x y z vx vy vz,
        handle_connection_step cid (Packet.PlayerMovement none x y z vx vy vz) =
          RecvAction.publish (Packet.PlayerMovement (some cid) x y z vx vy vz)) ∧
      (∀ cid e rest, handle_connection_run cid (Except.error e :: rest) =
        (LoopOutcome.errored, [])) ∧
      (∀ cid id rest,
        handle_connection_run cid (Except.ok (Packet.ClientDisconnect id) :: rest) =
          (LoopOutcome.finishedOk, [])) :=
  ⟨fun _ => rfl, fun _ _ _ _ _ _ _ _ => rfl, fun _ _ => rfl,
    fun _ _ _ _ _ _ _ => rfl, fun _ _ _ => rfl, fun _ _ _ => rfl⟩

/-- Claim C5: a `ClientDisconnect(Some(i))` from the bus is forwarded
exactly once by the broadcast loop of every peer whose `client_id`
differs from `i`, while the broadcast loop of the matching peer
forwards nothing and terminates with `Ok(())`. -/
theorem clientDisconnect_fanout (i cid : Nat) :
    (cid ≠ i → receive_broadcasts_step cid (Packet.ClientDisconnect (some i)) =
        BusAction.sends [Packet.ClientDisconnect (some i)]) ∧
      receive_broadcasts_step i (Packet.ClientDisconnect (some i)) =
        BusAction.terminated := by
  constructor
  · intro hne
    have hs : i ≠ cid := Ne.symm hne
    simp [receive_broadcasts_step, hs]
  · simp [receive_broadcasts_step]

/-- Witness for C5 with `i = 3`: peer 4 forwards the disconnect, peer 3
terminates. -/
theorem clientDisconnect_fanout_witness :
    receive_broadcasts_step 4 (Packet.ClientDisconnect (some 3)) =
        BusAction.sends [Packet.ClientDisconnect (some 3)] ∧
      receive_broadcasts_step 3 (Packet.ClientDisconnect (some 3)) =
        BusAction.terminated :=
  ⟨(clientDisconnect_fanout 3 4).1 (by decide), (clientDisconnect_fanout 3 4).2⟩

/-- Claim C6: every packet any server code path publishes to the bus —
the relabelled movements republished by `handle_connection` and the
supervisor's `ClientDisconnect(Some(client_id))` — satisfies the bus
invariant (`PlayerMovement` with a populated id or `ClientDisconnect`
with a populated id, never `ClientConnect`), and on any packet
satisfying that invariant the broadcast loop's `panic!` and `expect`
branches are unreachable. -/
theorem bus_invariant_no_panic :
    (∀ cid pkt q, handle_connection_step cid pkt = .publish q → busOk q = true) ∧
      (∀ cid, busOk (main_disconnect_broadcast cid) = true) ∧
      ∀ cid q, busOk q = true →
        busActionPanics (receive_broadcasts_step cid q) = false := by
  refine ⟨?_, fun _ => rfl, ?_⟩
  · intro cid pkt q h
    match pkt with
    | .ClientConnect => simp [handle_connection_step] at h
    | .ClientDisconnect id => simp [handle_connection_step] at h
    | .PlayerMovement (some i) x y z vx vy vz =>
      simp [handle_connection_step] at h
    | .PlayerMovement none x y z vx vy vz =>
      simp only [handle_connection_step, RecvAction.publish.injEq] at h
      subst h
      rfl
  · intro cid q hq
    match q with
    | .ClientConnect => simp [busOk] at hq
    | .ClientDisconnect none => simp [busOk] at hq
    | .ClientDisconnect (some i) =>
      by_cases h : i = cid <;> simp [receive_broadcasts_step, h, busActionPanics]
    | .PlayerMovement none x y z vx vy vz => simp [busOk] at hq
    | .PlayerMovement (some i) x y z vx vy vz =>
      by_cases h : i = cid <;> simp [receive_broadcasts_step, h, busActionPanics]

/-- Witness for C6: the relabelled movement published by sender 1
satisfies the bus invariant, and peer 2's broadcast loop handles it
without reaching a panic branch. -/
theorem bus_invariant_no_panic_witness :
    busOk (Packet.PlayerMovement (some 1) 0 0 0 0 0 0) = true ∧
      busActionPanics
        (receive_broadcasts_step 2 (Packet.PlayerMovement (some 1) 0 0 0 0 0 0)) =
        false :=
  ⟨bus_invariant_no_panic.1 1 (Packet.PlayerMovement none 0 0 0 0 0 0)
      (Packet.PlayerMovement (some 1) 0 0 0 0 0 0) (by decide),
    bus_invariant_no_panic.2.2 2 (Packet.PlayerMovement (some 1) 0 0 0 0 0 0)
      (by decide)⟩

/-- Counterexample to claim C7: the `PlayerMovement` variant declared in
`src/networking.rs` does not consist of the fields
`id, x, y, z, animation_frame`: its field list differs (three
velocities, no animation frame), and under the very same bincode rules
an all-zero movement packet encodes to 26 bytes
(1 discriminant + 1 `None` marker + 6 four-byte floats) where the
spec's claimed field list gives 15 bytes
(1 + 1 + 3 four-byte floats + 1 animation byte). -/
theorem playerMovement_fields_mismatch :
    playerMovementFields ≠ specPlayerMovementFields ∧
      (encode_packet (Packet.PlayerMovement none 0 0 0 0 0 0)).length = 26 ∧
      (encode_packet_spec (PacketSpec.PlayerMovement none 0 0 0 0)).length = 15 := by
  refine ⟨?_, rfl, rfl⟩
  intro h
  simp [playerMovementFields, specPlayerMovementFields] at h

/-- Claim C7 as amended: the `PlayerMovement` variant consists of
exactly the fields `id` (optional PeerId), `x`, `y`, `z`,
`velocity_x`, `velocity_y`, `velocity_z`; the client builds its
outbound movement packet with `id = None`, and the server rebroadcasts
it with `id = Some(sender's client_id)`. -/
theorem playerMovement_fields_amended :
    playerMovementFields =
        ["id", "x", "y", "z", "velocity_x", "velocity_y", "velocity_z"] ∧
      (∀ x y z animation_frame,
        specMovementId (send_current_position_packet x y z animation_frame) =
          some none) ∧
      ∀ cid x y z vx vy vz,
        handle_connection_step cid (Packet.PlayerMovement none x y z vx vy vz) =
          RecvAction.publish (Packet.PlayerMovement (some cid) x y z vx vy vz) :=
  ⟨rfl, fun _ _ _ _ => rfl, fun _ _ _ _ _ _ _ => rfl⟩

/-- Claim C8: on a live connection, `try_disconnect` sends exactly one
`ClientDisconnect(None)` and completes its synchronous waits, returning
`Ok`; if the connection task had already failed, it returns the
"already reported" error instead of re-surfacing the original failure;
and a second call after a completed disconnect finds the outbound
channel closed, so it returns a send error — it neither panics on the
consumed join handle nor blocks. -/
theorem try_disconnect_behavior (s : ClientConn)
    (hclosed : s.to_client_closed = false) (hfull : s.to_client_full = false)
    (hhandle : s.handle_consumed = false) :
    (s.connect_failed = false →
        (try_disconnect s).1 = DisconnectOutcome.ok ∧
        (try_disconnect s).2.1 = [Packet.ClientDisconnect none] ∧
        (try_disconnect (try_disconnect s).2.2).1 =
          DisconnectOutcome.errSendFailed ∧
        (try_disconnect (try_disconnect s).2.2).1 ≠
          DisconnectOutcome.panicked) ∧
      (s.connect_failed = true →
        (try_disconnect s).1 = DisconnectOutcome.errAlreadyReported ∧
        (try_disconnect s).2.1 = [Packet.ClientDisconnect none]) := by
  constructor
  · intro hok
    refine ⟨?_, ?_, ?_, ?_⟩ <;>
      simp [try_disconnect, hclosed, hfull, hhandle, hok]
  · intro hfail
    constructor <;> simp [try_disconnect, hclosed, hfull, hhandle, hfail]

/-- Witness for C8 at the two concrete states: a healthy online
connection, and one whose connect task failed. -/
theorem try_disconnect_behavior_witness :
    (try_disconnect ⟨false, false, false, false⟩).1 = DisconnectOutcome.ok ∧
      (try_disconnect (try_disconnect ⟨false, false, false, false⟩).2.2).1 =
        DisconnectOutcome.errSendFailed ∧
      (try_disconnect ⟨false, false, true, false⟩).1 =
        DisconnectOutcome.errAlreadyReported :=
  ⟨((try_disconnect_behavior ⟨false, false, false, false⟩ rfl rfl rfl).1 rfl).1,
    ((try_disconnect_behavior ⟨false, false, false, false⟩ rfl rfl rfl).1 rfl).2.2.1,
    ((try_disconnect_behavior ⟨false, false, true, false⟩ rfl rfl rfl).2 rfl).1⟩

/-- Counterexample to claim C9: when the non-blocking offer finds the
inbound queue already closed, the packet is dropped with no log line at
all — contradicting "no decoded packet is ever dropped silently". -/
theorem closed_channel_silent_drop :
    forward_to_bevy TrySendResult.closed true = ForwardOutcome.droppedNoLog ∧
      droppedSilently ForwardOutcome.droppedNoLog = true := by
  exact ⟨rfl, rfl⟩

/-- Claim C9 as amended: the pump offers each decoded packet
non-blockingly first and falls back to a blocking offer (with a
warning) exactly when that offer reports the queue full; a packet is
never dropped silently unless the non-blocking offer finds the queue
closed; and closure of the inbound queue terminates the pump loop. -/
theorem receive_pump_fallback :
    (∀ first blocking_send_accepted,
        usesBlockingOffer (forward_to_bevy first blocking_send_accepted) = true ↔
          first = TrySendResult.full) ∧
      (∀ first blocking_send_accepted, first ≠ TrySendResult.closed →
        droppedSilently (forward_to_bevy first blocking_send_accepted) = false) ∧
      await_server_packets_continues true = false ∧
      await_server_packets_continues false = true := by
  refine ⟨?_, ?_, rfl, rfl⟩
  · intro f b
    cases f <;> cases b <;> simp [forward_to_bevy, usesBlockingOffer]
  · intro f b hf
    cases f <;> cases b <;> simp_all [forward_to_bevy, droppedSilently]

/-- Witness for C9 (amended) at the queue-full case: the blocking
fallback is used and nothing is dropped silently. -/
theorem receive_pump_fallback_witness :
    usesBlockingOffer (forward_to_bevy TrySendResult.full true) = true ∧
      droppedSilently (forward_to_bevy TrySendResult.full true) = false :=
  ⟨(receive_pump_fallback.1 TrySendResult.full true).mpr rfl,
    receive_pump_fallback.2.1 TrySendResult.full true (by decide)⟩

/-- Counterexample to claim C10: a present `PeerId` is not encoded as
an 8-byte unsigned integer. `ClientDisconnect(Some(0))` encodes to the
three bytes `[1, 1, 0]` (discriminant, `Some` marker, varint 0); an
8-byte id after the marker and discriminant would give 10 bytes. -/
theorem peerId_not_eight_bytes :
    encode_packet (Packet.ClientDisconnect (some 0)) = [1, 1, 0] ∧
      (encode_packet (Packet.ClientDisconnect (some 0))).length ≠ 10 := by
  refine ⟨rfl, by decide⟩

/-- Claim C10 as amended: a present `PeerId` is encoded as a bincode
varint (1 to 9 bytes for a `u64`) preceded by a one-byte present/absent
marker; every constructible `Packet` encodes to at most 35 bytes and so
fits the 64-byte ceiling; `receive_packet` refuses any stream longer
than 64 bytes; and decoding fails cleanly (returns an error value) on
truncated or garbage input. -/
theorem wire_format_amended :
    (∀ v, encodeOptionId (some v) = 1 :: writeVarint v) ∧
      (∀ v, 1 ≤ (writeVarint v).length ∧ (writeVarint v).length ≤ 9) ∧
      (∀ p, (encode_packet p).length ≤ 64) ∧
      (∀ bs : List Nat, 64 < bs.length → receive_packet bs = none) ∧
      decode_packet [] = none ∧
      decode_packet [9] = none ∧
      decode_packet [2, 1] = none := by
  refine ⟨fun _ => rfl, writeVarint_length, ?_, ?_, rfl, rfl, rfl⟩
  · intro p
    exact le_trans (encode_packet_length p) (by norm_num)
  · intro bs hbs
    simp [receive_packet, hbs]

/-- Witness for C10 (amended): a 65-byte stream is refused. -/
theorem wire_format_amended_witness :
    receive_packet (List.replicate 65 0) = none :=
  wire_format_amended.2.2.2.1 (List.replicate 65 0) (by simp)

end Miniscop
